import Mathlib

/-!
Verification of the AgentOS core against its specification.

This file gives a shallow embedding, in Lean 4, of the parts of the
AgentOS sources that the specification talks about:

* `core/graph.py` (the step router),
* `core/nodes/actor.py` and `core/nodes/auditor.py` (the two step nodes),
* `core/audit_strategies.py` (the verification predicates),
* `core/skill_registry.py` (skills, registration, execution),
* `core/memory_manager.py` (facts store, cold tier, context formatting),
* `core/config.py` (base-URL sanitisation in `AgentOSConfig.from_env`).

Python dictionaries are modelled as insertion-ordered association lists,
Python strings as Lean strings (operated on through their character
lists), and exceptions as `Except String`.  External effects (LLM calls,
the vector-store search, `exec` of generated code) are passed in as
explicit oracle arguments describing the outcome of the corresponding
call, so every node stays a pure function of its inputs.
-/

namespace AgentOS

/-- The single-quote character, written via its code point. -/
def sq : Char := Char.ofNat 39

/-- The double-quote character, written via its code point. -/
def dq : Char := Char.ofNat 34

/-- Wrap a string in single quotes, as the Python f-strings of the source do. -/
def quoted (s : String) : String := String.mk [sq] ++ s ++ String.mk [sq]

/-- Python `\s` on ASCII input: space, tab, newline, carriage return,
vertical tab, form feed. -/
def isSpace (c : Char) : Bool :=
  c == ' ' || c == Char.ofNat 9 || c == Char.ofNat 10 || c == Char.ofNat 13 ||
  c == Char.ofNat 11 || c == Char.ofNat 12

/-- Python `\w` on ASCII input: letters, digits, underscore. -/
def isWordChar (c : Char) : Bool :=
  (c ≥ 'a' && c ≤ 'z') || (c ≥ 'A' && c ≤ 'Z') || (c ≥ '0' && c ≤ '9') || c == '_'

/-- ASCII lowercasing of a string, modelling Python `str.lower` on ASCII input. -/
def lowerStr (s : String) : String := String.mk (s.data.map Char.toLower)

/-- Substring test on character lists: `containsSub hay sub` is true iff `sub`
occurs contiguously in `hay`.  Models the Python operator `sub in hay`. -/
def containsSub (hay sub : List Char) : Bool :=
  if sub.isPrefixOf hay then true
  else
    match hay with
    | [] => false
    | _ :: t => containsSub t sub

/-- Substring test on strings, modelling Python `sub in s`. -/
def strContains (s sub : String) : Bool := containsSub s.data sub.data

/-- Python `str.rstrip(chars)`: remove trailing characters that belong to the
character SET `chars` (not the suffix `chars` - this distinction is the heart
of the base-URL claim). -/
def rstripChars (s : String) (chars : String) : String :=
  String.mk ((s.data.reverse.dropWhile (fun c => chars.data.contains c)).reverse)

/-- Lookup in an insertion-ordered association list, modelling `dict.get`. -/
def dictGet {α : Type} (k : String) (d : List (String × α)) : Option α :=
  (d.find? (fun p => p.1 == k)).map (·.2)

/-- Update of an insertion-ordered association list, modelling `dict[k] = v`:
an existing key keeps its position, a new key is appended. -/
def dictSet {α : Type} (k : String) (v : α) : List (String × α) → List (String × α)
  | [] => [(k, v)]
  | (k', v') :: rest => if k' == k then (k, v) :: rest else (k', v') :: dictSet k v rest

/-!
## `core/audit_strategies.py`

`AuditResult` and the four verification predicates.  The three file-based
predicates inspect the filesystem; the filesystem is modelled as an
association list from paths to file contents (`os.path.exists` is key
membership, reading a file is lookup).
-/

/-- The `severity` literal of `AuditResult`. -/
inductive Severity
  | INFO
  | WARNING
  | ERROR
deriving DecidableEq, Repr

/-- `AuditResult` dataclass from `core/audit_strategies.py`. -/
structure AuditResult where
  passed : Bool
  message : String
  severity : Severity := .INFO
deriving DecidableEq, Repr

/-- The filesystem visible to the audit strategies: path to file contents. -/
def FileSystem := List (String × String)

/-- `os.path.exists` over the modelled filesystem. -/
def pathExists (fs : FileSystem) (path : String) : Bool :=
  (dictGet (α := String) path fs).isSome

/-- `verify_file_exists` from `core/audit_strategies.py`. -/
def verify_file_exists (fs : FileSystem) (path : String) : AuditResult :=
  if pathExists fs path then
    ⟨true, "File " ++ quoted path ++ " exists.", .INFO⟩
  else
    ⟨false, "File " ++ quoted path ++ " NOT found.", .ERROR⟩

/-- `verify_file_content_contains` from `core/audit_strategies.py`.  Reading an
existing file succeeds in the model, so the `except` branch of the source does
not arise. -/
def verify_file_content_contains (fs : FileSystem) (path : String) (substring : String) :
    AuditResult :=
  match dictGet path fs with
  | none => ⟨false, "File " ++ quoted path ++ " does not exist.", .ERROR⟩
  | some content =>
    if strContains content substring then
      ⟨true, "File " ++ quoted path ++ " contains expected text.", .INFO⟩
    else
      let preview :=
        if content.length > 50 then String.mk (content.data.take 50) ++ "..." else content
      ⟨false, "File " ++ quoted path ++ " content mismatch. Found: " ++ quoted preview, .ERROR⟩

/-- `verify_file_does_not_exist` from `core/audit_strategies.py`. -/
def verify_file_does_not_exist (fs : FileSystem) (path : String) : AuditResult :=
  if !pathExists fs path then
    ⟨true, "File " ++ quoted path ++ " correctly does not exist.", .INFO⟩
  else
    ⟨false, "File " ++ quoted path ++ " exists but should not.", .ERROR⟩

/-- `verify_tool_output_success` from `core/audit_strategies.py`: fails iff the
lowercased previous output contains "error", "exception" or "failed". -/
def verify_tool_output_success (previous_output : String) : AuditResult :=
  if strContains (lowerStr previous_output) "error" ||
     strContains (lowerStr previous_output) "exception" ||
     strContains (lowerStr previous_output) "failed" then
    ⟨false, "Previous step reported error: " ++ previous_output, .ERROR⟩
  else
    ⟨true, "Previous step executed successfully.", .INFO⟩

/-!
## `core/skill_registry.py`

`Skill`, `SkillRegistry`, registration (with the core-override logic) and
execution.  A skill's runtime hook is an arbitrary Python callable; it is
modelled as an optional Lean function from a keyword-parameter mapping to
`Except String String` (`.error` models a raised exception, `.ok` carries the
string rendering of the returned value).
-/

/-- One entry of the `parameters` mapping of a skill.  Only the `required`
flag is read by `Skill.execute` (`param_spec.get("required", False)`). -/
structure ParamSpec where
  required : Bool := false
deriving DecidableEq, Repr

/-- The `Skill` dataclass from `core/skill_registry.py`. -/
structure Skill where
  name : String
  description : String
  agent : String
  category : String
  module_path : String
  parameters : List (String × ParamSpec) := []
  tags : List String := []
  version : String := "1.0.0"
  is_core : Bool := false
  overrides_core : Bool := false
  prompt_instructions : Option String := none
  hook : Option (List (String × String) → Except String String) := none

/-- `Skill.execute` from `core/skill_registry.py`: a skill without a hook
raises; a missing required parameter raises `ValueError`; an exception from
the hook is wrapped as "Skill '<name>' execution failed: <msg>". -/
def Skill.executeSkill (sk : Skill) (params : List (String × String)) :
    Except String String :=
  match sk.hook with
  | none => .error ("Skill " ++ sk.name ++ " has no execute function loaded")
  | some f =>
    match sk.parameters.find? (fun p => p.2.required && !(params.any (fun q => q.1 == p.1))) with
    | some p =>
      .error ("Missing required parameter " ++ quoted p.1 ++ " for skill " ++ quoted sk.name)
    | none =>
      match f params with
      | .ok v => .ok v
      | .error e => .error ("Skill " ++ quoted sk.name ++ " execution failed: " ++ e)

/-- The mutable indices of `SkillRegistry`. -/
structure SkillRegistry where
  agent_name : String := "core"
  skills : List (String × Skill) := []
  core_skills : List (String × Skill) := []
  skills_by_agent : List (String × List String) := []
  skills_by_category : List (String × List String) := []

/-- `SkillRegistry.get_skill`. -/
def SkillRegistry.get_skill (r : SkillRegistry) (name : String) : Option Skill :=
  dictGet name r.skills

/-- `SkillRegistry.has_skill`. -/
def SkillRegistry.has_skill (r : SkillRegistry) (name : String) : Bool :=
  (r.get_skill name).isSome

/-- Append a name to an index list unless already present, modelling the
`if skill.name not in list: list.append(skill.name)` pattern of the source. -/
def listAddUnique (x : String) (l : List String) : List String :=
  if l.contains x then l else l ++ [x]

/-- `SkillRegistry.register_skill` from `core/skill_registry.py`: sets
`overrides_core` on a non-core skill that shadows a registered core skill,
stores core skills additionally in the core index, installs the skill in the
primary index and keeps the by-agent and by-category indices consistent. -/
def SkillRegistry.register_skill (r : SkillRegistry) (skill : Skill) : SkillRegistry :=
  let skill :=
    match dictGet skill.name r.skills with
    | some existing =>
      if existing.is_core && !skill.is_core then { skill with overrides_core := true }
      else skill
    | none => skill
  let core_skills :=
    if skill.is_core then dictSet skill.name skill r.core_skills else r.core_skills
  let skills := dictSet skill.name skill r.skills
  let byAgent :=
    dictSet skill.agent
      (listAddUnique skill.name ((dictGet skill.agent r.skills_by_agent).getD []))
      r.skills_by_agent
  let byCategory :=
    dictSet skill.category
      (listAddUnique skill.name ((dictGet skill.category r.skills_by_category).getD []))
      r.skills_by_category
  { r with
    skills := skills
    core_skills := core_skills
    skills_by_agent := byAgent
    skills_by_category := byCategory }

/-- `SkillRegistry.execute_skill`. -/
def SkillRegistry.execute_skill (r : SkillRegistry) (name : String)
    (params : List (String × String)) : Except String String :=
  match r.get_skill name with
  | none => .error ("Skill " ++ quoted name ++ " not found in registry")
  | some sk => sk.executeSkill params

/-- The `Agent` attributes the nodes reach through `state.agent_instance`:
`Agent.execute_skill` simply forwards to the registry. -/
structure Agent where
  name : String
  registry : SkillRegistry

/-!
## `core/state.py` and `core/graph.py`

The execution state is a `TypedDict`; fields the nodes read with
`state.get(key, default)` keep their defaults here (`current_step_index`
defaults to 0, `plan` to `[]`, `tool_outputs` to `{}`), and fields read with
`step.get(key)` (which yields `None` for a missing key) are `Option`s.
-/

/-- One plan step, as the dict the planner appends to `state["plan"]`. -/
structure PlanStep where
  role : Option String := none
  instruction : Option String := none
  reasoning : Option String := none
  expected_outcome : Option String := none

/-- The execution state threaded through the graph. -/
structure AgentState where
  messages : List (String × String) := []
  intent_type : Option String := none
  plan : List PlanStep := []
  current_step_index : Nat := 0
  tool_outputs : List (String × String) := []
  final_response : Option String := none
  memory_context : String := ""
  agent_name : String := "default"
  auto_log_enabled : Bool := true
  agent_instance : Option Agent := none

/-- The three routing outcomes of `route_step` (`"actor"`, `"auditor"`, `END`). -/
inductive RouteTarget
  | toActor
  | toAuditor
  | toEnd
deriving DecidableEq, Repr

/-- `route_step` from `core/graph.py`. -/
def route_step (st : AgentState) : RouteTarget :=
  if h : st.current_step_index < st.plan.length then
    let step := st.plan[st.current_step_index]
    if step.role = some "Actor" then .toActor
    else if step.role = some "Auditor" then .toAuditor
    else .toEnd
  else .toEnd

/-!
## The skill-invocation regex of `core/nodes/actor.py`

The Actor looks for a skill mention with
`re.search(r'(?:use|execute|run)\s+(?:skill\s+)?["\x27]?(\w[\w-]+)["\x27]?',
instruction, re.IGNORECASE)`.  The matcher below reproduces that search on
ASCII input: positions are tried left to right; at each position the verb
alternatives are tried in order; `\s+` and `(?:skill\s+)?` are greedy, and
the only backtracking the pattern can need (retrying without the optional
`skill` group, and without the optional opening quote) is made explicit.
-/

/-- Quote characters accepted by the optional `["\x27]?` part. -/
def isQuote (c : Char) : Bool := c == dq || c == sq

/-- Case-insensitive literal match of `pat` (given lowercase) at the head. -/
def litMatch (pat : String) (xs : List Char) : Bool :=
  (xs.take pat.length).map Char.toLower == pat.data

/-- The capture group `(\w[\w-]+)`: a word character followed greedily by at
least one further word character or hyphen. -/
def matchName (xs : List Char) : Option String :=
  match xs with
  | [] => none
  | c :: rest =>
    if isWordChar c then
      let run := rest.takeWhile (fun d => isWordChar d || d == '-')
      if run.isEmpty then none else some (String.mk (c :: run))
    else none

/-- `["\x27]?(\w[\w-]+)`: greedily consume one quote if present, retrying
without it when the name fails (the retry can only fail again, since a quote
is not a word character, but it is kept to mirror the regex engine). -/
def matchQuoteName (xs : List Char) : Option String :=
  match xs with
  | [] => none
  | c :: rest =>
    if isQuote c then
      match matchName rest with
      | some n => some n
      | none => matchName xs
    else matchName xs

/-- `(?:skill\s+)?["\x27]?(\w[\w-]+)`: greedily try the literal `skill`
followed by whitespace; if the remainder fails, fall back to matching
without the optional group. -/
def matchSkillTail (xs : List Char) : Option String :=
  let withSkill : Option String :=
    if litMatch "skill" xs then
      match xs.drop 5 with
      | c :: _ =>
        if isSpace c then matchQuoteName ((xs.drop 5).dropWhile isSpace) else none
      | [] => none
    else none
  match withSkill with
  | some n => some n
  | none => matchQuoteName xs

/-- `\s+(?:skill\s+)?...` after a verb: at least one whitespace character,
consumed greedily (nothing that follows can match whitespace, so the
maximal munch is exact). -/
def matchAfterVerb (xs : List Char) : Option String :=
  match xs with
  | c :: _ => if isSpace c then matchSkillTail (xs.dropWhile isSpace) else none
  | [] => none

/-- Try one verb alternative at the current position. -/
def tryVerb (v : String) (xs : List Char) : Option String :=
  if litMatch v xs then matchAfterVerb (xs.drop v.length) else none

/-- The alternation `(?:use|execute|run)` at one position, in the order the
regex engine tries it. -/
def matchVerbAt (xs : List Char) : Option String :=
  match tryVerb "use" xs with
  | some n => some n
  | none =>
    match tryVerb "execute" xs with
    | some n => some n
    | none => tryVerb "run" xs

/-- `re.search`: try every start position left to right. -/
def searchSkillName (xs : List Char) : Option String :=
  match matchVerbAt xs with
  | some n => some n
  | none =>
    match xs with
    | [] => none
    | _ :: rest => searchSkillName rest

/-- The skill name the Actor extracts from an instruction, if any. -/
def findSkillInvocation (instruction : String) : Option String :=
  searchSkillName instruction.data

/-!
## `core/nodes/actor.py`

`actor_node` returns a partial state update (`{}`, or `tool_outputs` plus
`current_step_index`).  Two oracles describe the external effects of the
fallback path: `codeResp` is the outcome of the tool-LLM call
(`llm.generate`, whose exception would propagate out of the node), and
`execRes` the outcome of `exec` on the cleaned code (whose exception is
caught, turning the recorded output into an error string).  The result is
`Except String`: `.error` models an exception escaping the node.
-/

/-- The partial state update returned by `actor_node`. -/
structure ActorUpdate where
  tool_outputs : Option (List (String × String)) := none
  current_step_index : Option Nat := none
deriving DecidableEq, Repr

/-- `actor_node` from `core/nodes/actor.py`. -/
def actor_node (codeResp : Except String String) (execRes : Except String Unit)
    (st : AgentState) : Except String ActorUpdate :=
  if h : st.current_step_index < st.plan.length then
    let idx := st.current_step_index
    let step := st.plan[st.current_step_index]
    if step.role ≠ some "Actor" then .ok {}
    else
      match step.instruction with
      | none =>
        -- `re.search` on `None` raises `TypeError` before anything else runs
        .error "TypeError: expected string or bytes-like object"
      | some instruction =>
        let fallback : Except String ActorUpdate :=
          match codeResp with
          | .error e => .error e
          | .ok _ =>
            let output :=
              match execRes with
              | .ok _ => "Success"
              | .error e => "Error: " ++ e
            .ok { tool_outputs := some (dictSet ("step_" ++ toString idx) output st.tool_outputs)
                  current_step_index := some (idx + 1) }
        match st.agent_instance with
        | none => fallback
        | some ag =>
          match findSkillInvocation instruction with
          | none => fallback
          | some skillName =>
            if ag.registry.has_skill skillName then
              match ag.registry.execute_skill skillName [] with
              | .ok skillResult =>
                .ok { tool_outputs :=
                        some (dictSet ("step_" ++ toString idx)
                          ("Skill executed: " ++ skillResult) st.tool_outputs)
                      current_step_index := some (idx + 1) }
              | .error _ =>
                -- the exception is caught and printed, then control falls
                -- through to code generation
                fallback
            else fallback
  else .ok {}

/-!
## `core/nodes/auditor.py`

The Auditor asks the parser LLM (over HTTP, inside a `try`) for a strategy
name and arguments, dispatches through the hardcoded table, prints the
result, and unconditionally advances the cursor.  The LLM interaction is an
oracle of type `Except String StrategyChoice` (`.error` covering a transport
failure, a bad HTTP status, or unparseable JSON, all caught by the same
`except`).
-/

/-- The `args` mapping of the LLM reply; absent keys default to `""` at use. -/
structure StrategyArgs where
  path : Option String := none
  substring : Option String := none
deriving DecidableEq, Repr

/-- The parsed LLM reply: `data.get("strategy")` and `data.get("args", {})`. -/
structure StrategyChoice where
  strategy : Option String := none
  args : StrategyArgs := {}
deriving DecidableEq, Repr

/-- The hardcoded strategy dispatch of `auditor_node`: the three file
strategies by name, everything else falling back to
`verify_tool_output_success` on the previous step's output. -/
def auditorDispatch (fs : FileSystem) (choice : StrategyChoice) (prevOutput : String) :
    AuditResult :=
  if choice.strategy = some "verify_file_exists" then
    verify_file_exists fs (choice.args.path.getD "")
  else if choice.strategy = some "verify_file_content_contains" then
    verify_file_content_contains fs (choice.args.path.getD "") (choice.args.substring.getD "")
  else if choice.strategy = some "verify_file_does_not_exist" then
    verify_file_does_not_exist fs (choice.args.path.getD "")
  else
    verify_tool_output_success prevOutput

/-- The partial state update returned by `auditor_node`. -/
structure AuditorUpdate where
  current_step_index : Option Nat := none
deriving DecidableEq, Repr

/-- The key of the previous step's output: `f"step_{idx - 1}"` with Python
integer arithmetic, so step 0 looks up `"step_-1"`. -/
def prevStepKey (idx : Nat) : String :=
  "step_" ++ toString ((idx : Int) - 1)

/-- `auditor_node` from `core/nodes/auditor.py`.  The audit result is only
printed by the source; the update always advances the cursor by one once the
guards pass, no matter whether the LLM call succeeded. -/
def auditor_node (llmChoice : Except String StrategyChoice) (fs : FileSystem)
    (st : AgentState) : AuditorUpdate :=
  if h : st.current_step_index < st.plan.length then
    let idx := st.current_step_index
    let step := st.plan[st.current_step_index]
    if step.role ≠ some "Auditor" then {}
    else
      let prevOutput := (dictGet (prevStepKey idx) st.tool_outputs).getD ""
      let _auditResult :=
        match llmChoice with
        | .ok choice => some (auditorDispatch fs choice prevOutput)
        | .error _ => none
      { current_step_index := some (idx + 1) }
  else {}

/-!
## `core/memory_manager.py`

The facts store (`user_facts` table with a UNIQUE key column) is modelled as
the list of its rows in rowid order: `INSERT OR REPLACE` deletes the
conflicting row and appends the new one.  The HOT and WARM tiers are the
current contents of `NOW.md` and `LOG.md`.  The COLD tier handle
(`self.lance_db`) is `none` when the backend is unavailable; the body of the
`try` blocks of `store_memory` / `recall_memory` (embedding call, table
creation or insert, vector search) talks to external services and is passed
in as an oracle describing its outcome.
-/

/-- One row of the `user_facts` table. -/
structure UserFact where
  key : String
  value : String
  category : String
deriving DecidableEq, Repr

/-- `MemoryManager.save_fact`: `INSERT OR REPLACE INTO user_facts` on the
UNIQUE `key` column (the side log append does not touch the table). -/
def save_fact (facts : List UserFact) (key value category : String) : List UserFact :=
  facts.filter (fun f => !(f.key == key)) ++ [⟨key, value, category⟩]

/-- `MemoryManager.get_fact`: `SELECT value FROM user_facts WHERE key = ?`. -/
def get_fact (facts : List UserFact) (key : String) : Option String :=
  (facts.find? (fun f => f.key == key)).map (·.value)

/-- `MemoryManager.get_all_facts`: optional category filter (`if category:`
is falsy for both `None` and `""`), then a dict comprehension over the rows. -/
def get_all_facts (facts : List UserFact) (category : Option String) :
    List (String × String) :=
  let rows :=
    match category with
    | none => facts
    | some c => if c == "" then facts else facts.filter (fun f => f.category == c)
  rows.foldl (fun d f => dictSet f.key f.value d) []

/-- Python `sep.join(entries)`. -/
def joinWith (sep : String) : List String → String
  | [] => ""
  | [x] => x
  | x :: xs => x ++ sep ++ joinWith sep xs

/-- Hexadecimal digit (lowercase), for `\u00xx` escapes. -/
def hexDigit (n : Nat) : Char :=
  (("0123456789abcdef".data).getD n '0')

/-- `json.dumps` escaping of one character (ASCII input). -/
def jsonEscapeChar (c : Char) : List Char :=
  if c == dq then ['\\', dq]
  else if c == '\\' then ['\\', '\\']
  else if c == '\n' then ['\\', 'n']
  else if c == '\t' then ['\\', 't']
  else if c == '\r' then ['\\', 'r']
  else if c == Char.ofNat 8 then ['\\', 'b']
  else if c == Char.ofNat 12 then ['\\', 'f']
  else if c.toNat < 32 then
    ['\\', 'u', '0', '0', hexDigit (c.toNat / 16), hexDigit (c.toNat % 16)]
  else [c]

/-- A JSON string literal for `s`. -/
def jsonStr (s : String) : String :=
  String.mk [dq] ++ String.mk (s.data.map jsonEscapeChar).flatten ++ String.mk [dq]

/-- `json.dumps(d, indent=2)` for a string-to-string dict in insertion order:
`"{}"` when empty, one two-space-indented `"key": "value"` line per entry
otherwise. -/
def jsonDumpsIndent2 (d : List (String × String)) : String :=
  match d with
  | [] => "\x7b\x7d"
  | _ =>
    "\x7b\n" ++
    joinWith ",\n" (d.map (fun kv => "  " ++ jsonStr kv.1 ++ ": " ++ jsonStr kv.2)) ++
    "\n\x7d"

/-- Python `content.split(sep)` on character lists, scanning left to right for
non-overlapping occurrences of `sep` (nonempty in every use: the source splits
on `"\n---\n"`).  `skip` counts separator characters still to be consumed
after a match, `acc` the current entry in reverse, `out` the finished entries
in reverse. -/
def splitOnSepAux (sep : List Char) : List Char → Nat → List Char → List (List Char) →
    List (List Char)
  | [], _, acc, out => (acc.reverse :: out).reverse
  | _ :: xs, skip + 1, acc, out => splitOnSepAux sep xs skip acc out
  | x :: xs, 0, acc, out =>
    if sep.isPrefixOf (x :: xs) then
      splitOnSepAux sep xs (sep.length - 1) [] (acc.reverse :: out)
    else
      splitOnSepAux sep xs 0 (x :: acc) out

/-- Python `s.split(sep)` on strings. -/
def splitOnSepStr (sep s : String) : List String :=
  (splitOnSepAux sep.data s.data 0 [] []).map String.mk

/-- The COLD-tier handle: the set of table names of the LanceDB connection. -/
def LanceDb := List String

/-- One item returned by `recall_memory` (the float `distance` field is not
modelled). -/
structure RecallResult where
  content : String
  metadata : String
deriving DecidableEq, Repr

/-- The in-memory view of one `MemoryManager`. -/
structure MemoryManager where
  agent_name : String
  now_content : String
  log_content : String
  facts : List UserFact := []
  lance_db : Option LanceDb := none

/-- `MemoryManager.read_now` (the file exists after construction). -/
def MemoryManager.read_now (mm : MemoryManager) : String := mm.now_content

/-- `MemoryManager.read_log`: split `LOG.md` on `"\n---\n"` and keep the last
`n` entries when a truthy `last_n_entries` is given (`0` is falsy). -/
def MemoryManager.read_log (mm : MemoryManager) (last_n_entries : Option Nat) : String :=
  match last_n_entries with
  | none => mm.log_content
  | some n =>
    if n == 0 then mm.log_content
    else
      let entries := splitOnSepStr "\n---\n" mm.log_content
      joinWith "\n---\n" (entries.drop (entries.length - n))

/-- `MemoryManager.store_memory`: a missing backend is a no-op returning
`false`; otherwise the `try` block (embed, insert or create table) either
yields the updated connection or raises, in which case `False` is returned.
The outer `Except` records that the call itself never raises. -/
def MemoryManager.store_memory (mm : MemoryManager)
    (tryBlock : Except String LanceDb) : Except String (MemoryManager × Bool) :=
  match mm.lance_db with
  | none => .ok (mm, false)
  | some _ =>
    match tryBlock with
    | .ok db2 => .ok ({ mm with lance_db := some db2 }, true)
    | .error _ => .ok (mm, false)

/-- `MemoryManager.recall_memory`: a missing backend returns `[]`; with a
backend, a missing `{agent}_memory` table returns `[]`, and the `try` block
(embed plus vector search) either yields the result list or raises, in which
case `[]` is returned.  The outer `Except` records that the call itself never
raises. -/
def MemoryManager.recall_memory (mm : MemoryManager)
    (tryBlock : Except String (List RecallResult)) (_query : String) (_n_results : Nat) :
    Except String (List RecallResult) :=
  match mm.lance_db with
  | none => .ok []
  | some db =>
    if !(List.contains db (mm.agent_name ++ "_memory")) then .ok []
    else
      match tryBlock with
      | .ok rs => .ok rs
      | .error _ => .ok []

/-- The dict returned by `MemoryManager.read_context`. -/
structure ContextDict where
  now : String
  log : String
  facts : String
deriving DecidableEq, Repr

/-- `MemoryManager.read_context`: NOW.md, the last 20 log entries, and the
facts as indented JSON. -/
def MemoryManager.read_context (mm : MemoryManager) : ContextDict :=
  { now := mm.read_now
    log := mm.read_log (some 20)
    facts := jsonDumpsIndent2 (get_all_facts mm.facts none) }

/-- `MemoryManager.format_context_for_prompt`: two headed sections always,
plus the known-facts section when the facts JSON differs from `"{}"`. -/
def MemoryManager.format_context_for_prompt (mm : MemoryManager) : String :=
  let context := mm.read_context
  let formatted := "=== CURRENT MENTAL STATE (Do not ignore) ===\n" ++
    "You are currently working on:\n" ++ context.now ++ "\n\n"
  let formatted := formatted ++ "=== RECENT ACTIVITY LOG ===\n" ++ context.log ++ "\n\n"
  if context.facts ≠ "\x7b\x7d" then
    formatted ++ "=== KNOWN USER FACTS ===\n" ++ context.facts ++ "\n\n"
  else formatted

/-!
## `core/config.py`

The base-URL sanitisation of `AgentOSConfig.from_env`:
`url.rstrip('/').rstrip('/v1').rstrip('/api').rstrip('/')`, applied when the
configured value is truthy.  Note that Python `rstrip` takes a character
set, not a suffix.
-/

/-- The URL sanitisation applied by `AgentOSConfig.from_env` to the
configured base URL. -/
def sanitizeBaseUrl (url : String) : String :=
  if url == "" then url
  else rstripChars (rstripChars (rstripChars (rstripChars url "/") "/v1") "/api") "/"

/-!
## Concrete fixtures for the claim witnesses and counterexamples
-/

/-- A concrete plan for exercising the router. -/
def c3State : AgentState :=
  { plan := [{ role := some "Actor", instruction := some "do it" },
             { role := some "Auditor", instruction := some "check it" },
             { role := some "Responder", instruction := some "bad role" }] }

/-- A manager whose backend is unavailable. -/
def c7Manager : MemoryManager :=
  { agent_name := "finn", now_content := "Status: Idle", log_content := "", facts := [],
    lance_db := none }

/-- A concrete core skill named `file-operations`. -/
def c8CoreSkill : Skill :=
  { name := "file-operations", description := "core file ops", agent := "core",
    category := "filesystem", module_path := "core/skills/file-operations",
    is_core := true, hook := none }

/-- A concrete agent-level skill with the same name. -/
def c8AgentSkill : Skill :=
  { name := "file-operations", description := "finn file ops", agent := "finn",
    category := "filesystem", module_path := "agents/finn/skills/file-operations",
    is_core := false, hook := none }

/-- A registry in which only the core skill is registered. -/
def c8Registry : SkillRegistry :=
  { agent_name := "finn",
    skills := [("file-operations", c8CoreSkill)],
    core_skills := [("file-operations", c8CoreSkill)],
    skills_by_agent := [("core", ["file-operations"])],
    skills_by_category := [("filesystem", ["file-operations"])] }

/-- The code-generation fallback outcome of the Actor: the result of the
final block of `actor_node` (LLM call, fence stripping, `exec`), restated as
a named definition so that theorems can say which branch the node took.  An
LLM failure propagates; otherwise the `exec` outcome - `"Success"` or
`"Error: <msg>"` - is recorded under `step_{idx}` and the cursor advances
by one. -/
def actorFallbackResult (codeResp : Except String String) (execRes : Except String Unit)
    (st : AgentState) : Except String ActorUpdate :=
  match codeResp with
  | .error e => .error e
  | .ok _ =>
    .ok { tool_outputs := some (dictSet ("step_" ++ toString st.current_step_index)
            (match execRes with
             | .ok _ => "Success"
             | .error e => "Error: " ++ e) st.tool_outputs)
          current_step_index := some (st.current_step_index + 1) }

/-- An Actor step whose instruction mentions no skill, with no attached
agent. -/
def c1State : AgentState :=
  { plan := [{ role := some "Actor", instruction := some "Write a poem" }] }

/-- A skill whose hook raises (`boom`). -/
def c2Skill : Skill :=
  { name := "file-ops", description := "failing file ops", agent := "core",
    category := "filesystem", module_path := "core/skills/file-ops",
    is_core := true, hook := some (fun _ => .error "boom") }

/-- A registry holding only the failing skill. -/
def c2Registry : SkillRegistry :=
  { agent_name := "tester", skills := [("file-ops", c2Skill)],
    core_skills := [("file-ops", c2Skill)],
    skills_by_agent := [("core", ["file-ops"])],
    skills_by_category := [("filesystem", ["file-ops"])] }

/-- An Actor step whose instruction invokes the failing skill. -/
def c2State : AgentState :=
  { plan := [{ role := some "Actor", instruction := some "use file-ops" }],
    agent_instance := some { name := "tester", registry := c2Registry } }

/-- A concrete two-step plan at the Actor step. -/
def c4ActorState : AgentState :=
  { plan := [{ role := some "Actor", instruction := some "Write a poem" },
             { role := some "Auditor", instruction := some "Verify the poem" }] }

/-- The same plan at the Auditor step. -/
def c4AuditorState : AgentState :=
  { c4ActorState with current_step_index := 1,
                      tool_outputs := [("step_0", "Success")] }

/-- A memory manager whose facts store is empty. -/
def c10Manager : MemoryManager :=
  { agent_name := "finn",
    now_content := "# Current Status\n\nStatus: Idle\n",
    log_content := "# Activity Log - finn\n\nStarted: 2025-01-01\n\n---\n\n",
    facts := [], lance_db := none }

/-- The same manager with one stored fact. -/
def c10bManager : MemoryManager :=
  { c10Manager with facts := [{ key := "user_name", value := "Fernando",
                                category := "personal" }] }

/-!
## Shared lemmas
-/

/-- Setting a key makes it retrievable. -/
theorem dictGet_dictSet_self {α : Type} (k : String) (v : α) (d : List (String × α)) :
    dictGet k (dictSet k v d) = some v := by
  induction d with
  | nil => simp [dictGet, dictSet]
  | cons hd tl ih =>
    obtain ⟨k', v'⟩ := hd
    by_cases h : k' == k
    · simp [dictGet, dictSet, h]
    · simp only [dictSet, h, Bool.false_eq_true, if_false]
      simpa [dictGet, h] using ih

/-- A prefix occurrence is an occurrence. -/
theorem containsSub_of_isPrefixOf {sub hay : List Char} (h : sub.isPrefixOf hay = true) :
    containsSub hay sub = true := by
  unfold containsSub
  rw [if_pos h]

/-- An occurrence in the right part of an append is an occurrence. -/
theorem containsSub_append_left (a : List Char) {b sub : List Char}
    (h : containsSub b sub = true) : containsSub (a ++ b) sub = true := by
  induction a with
  | nil => simpa using h
  | cons x xs ih =>
    rw [List.cons_append, containsSub]
    split
    · rfl
    · exact ih

/-- A list is a Boolean prefix of itself followed by anything. -/
theorem isPrefixOf_append_self (sub rest : List Char) :
    sub.isPrefixOf (sub ++ rest) = true := by
  induction sub with
  | nil => cases rest <;> rfl
  | cons x xs ih => simp [List.isPrefixOf, ih]

/-- A string occurs in any string of which it is a middle factor. -/
theorem strContains_factor (a sub b : String) :
    strContains (a ++ (sub ++ b)) sub = true := by
  have h1 : containsSub (sub.data ++ b.data) sub.data = true :=
    containsSub_of_isPrefixOf (isPrefixOf_append_self sub.data b.data)
  have h2 := containsSub_append_left a.data h1
  simpa [strContains] using h2

/-!
## C3: the step router
-/

/-- C3.  `route_step` is a pure function of `(current_step_index, plan)`; it
returns the terminal target when the cursor is at or past the end of the
plan, the Actor target when the current step's role is the literal
`"Actor"`, the Auditor target when it is `"Auditor"`, and the terminal
target for any other role value. -/
theorem route_step_spec (st : AgentState) :
    (∀ st' : AgentState, st'.current_step_index = st.current_step_index →
       st'.plan = st.plan → route_step st' = route_step st) ∧
    (st.plan.length ≤ st.current_step_index → route_step st = .toEnd) ∧
    (∀ h : st.current_step_index < st.plan.length,
       (st.plan[st.current_step_index].role = some "Actor" → route_step st = .toActor) ∧
       (st.plan[st.current_step_index].role = some "Auditor" → route_step st = .toAuditor) ∧
       (st.plan[st.current_step_index].role ≠ some "Actor" →
        st.plan[st.current_step_index].role ≠ some "Auditor" → route_step st = .toEnd)) := by
  refine ⟨?_, ?_, ?_⟩
  · intro st' h1 h2
    simp only [route_step, h1, h2]
  · intro h
    rw [route_step, dif_neg (by omega)]
  · intro h
    refine ⟨?_, ?_, ?_⟩
    · intro hrole
      rw [route_step, dif_pos h]
      simp only [hrole]
      rfl
    · intro hrole
      rw [route_step, dif_pos h]
      simp only [hrole]
      rfl
    · intro hA hB
      rw [route_step, dif_pos h]
      simp only [if_neg hA, if_neg hB]

/-- Witness for C3: the router sends the state at step 0 of the concrete
plan to the Actor, at step 1 to the Auditor, at step 2 (an unknown role) to
the terminal target, and past the end to the terminal target. -/
theorem route_step_spec_witness :
    route_step c3State = .toActor ∧
    route_step { c3State with current_step_index := 1 } = .toAuditor ∧
    route_step { c3State with current_step_index := 2 } = .toEnd ∧
    route_step { c3State with current_step_index := 3 } = .toEnd := by
  refine ⟨?_, ?_, ?_, ?_⟩
  · exact ((route_step_spec c3State).2.2 (by decide)).1 rfl
  · exact ((route_step_spec { c3State with current_step_index := 1 }).2.2 (by decide)).2.1 rfl
  · exact ((route_step_spec { c3State with current_step_index := 2 }).2.2 (by decide)).2.2
      (by decide) (by decide)
  · exact (route_step_spec { c3State with current_step_index := 3 }).2.1 (by decide)

/-!
## C5: base-URL sanitisation
-/

/-- C5 (code bug).  The source comment says "Sanitize URL: remove /v1, /api,
and trailing slashes", but Python `rstrip` removes a trailing run of
characters drawn from a SET.  On the configured base URL
`"http://myserver1"` - which ends in neither `/v1` nor `/api` nor a slash,
so per the claim must be loaded unchanged - the load deletes the trailing
`1`.  The second conjunct shows a URL that genuinely ends in `/v1` for
contrast, and the third exhibits a second corruption (a `/vapi` path tail
collapsing to `/v`). -/
theorem sanitize_base_url_rstrip_bug :
    sanitizeBaseUrl "http://myserver1" = "http://myserver" ∧
    sanitizeBaseUrl "http://host:11434/v1" = "http://host:11434" ∧
    sanitizeBaseUrl "http://example.com/vapi" = "http://example.com/v" := by
  refine ⟨by decide, by decide, by decide⟩

/-!
## C7: COLD tier unavailable
-/

/-- C7.  With no vector-store backend (`lance_db is None`), `store_memory`
returns `False` and `recall_memory` returns the empty list, leaving the
manager untouched; both results are `.ok`, i.e. neither call raises. -/
theorem cold_backend_unavailable_noop (mm : MemoryManager)
    (storeTry : Except String LanceDb) (recallTry : Except String (List RecallResult))
    (query : String) (n_results : Nat) (hnone : mm.lance_db = none) :
    mm.store_memory storeTry = .ok (mm, false) ∧
    mm.recall_memory recallTry query n_results = .ok [] := by
  constructor
  · simp [MemoryManager.store_memory, hnone]
  · simp [MemoryManager.recall_memory, hnone]

/-- Witness for C7: both cold calls are no-ops on the concrete manager, even
when the abstracted backend interaction would have raised. -/
theorem cold_backend_unavailable_noop_witness :
    c7Manager.store_memory (.error "boom") = .ok (c7Manager, false) ∧
    c7Manager.recall_memory (.error "boom") "query" 3 = .ok [] :=
  cold_backend_unavailable_noop c7Manager (.error "boom") (.error "boom") "query" 3 rfl

/-!
## C6: fact round-trip
-/

/-- No row of the filtered table matches the saved key. -/
theorem find?_filter_ne_key (facts : List UserFact) (key : String) :
    List.find? (fun f => f.key == key) (facts.filter (fun f => !(f.key == key))) = none := by
  rw [List.find?_eq_none]
  intro f hf
  have := List.of_mem_filter hf
  simpa using this

/-- Folding `dictSet` over rows ending in the saved row keeps it retrievable. -/
theorem foldl_dictSet_append (rows : List UserFact) (f : UserFact)
    (d : List (String × String)) :
    List.foldl (fun d f => dictSet f.key f.value d) d (rows ++ [f]) =
      dictSet f.key f.value (List.foldl (fun d f => dictSet f.key f.value d) d rows) := by
  rw [List.foldl_append]
  rfl

/-- C6.  After `save_fact(key, value, category)`, `get_fact(key)` returns
`value` and the dict built by `get_all_facts()` maps `key` to `value`, for
every prior table contents - in particular when a fact with the same key
already existed, the newer value wins. -/
theorem save_fact_roundtrip (facts : List UserFact) (key value category : String) :
    get_fact (save_fact facts key value category) key = some value ∧
    dictGet key (get_all_facts (save_fact facts key value category) none) = some value := by
  constructor
  · rw [get_fact, save_fact, List.find?_append, find?_filter_ne_key]
    simp [List.find?]
  · rw [get_all_facts, save_fact]
    rw [foldl_dictSet_append]
    exact dictGet_dictSet_self _ _ _

/-!
## C8: core-skill override
-/

/-- C8.  If the primary index holds a core skill `c` under the name of a
non-core skill `s` (and the core index holds `c` as well, as layered loading
guarantees), then after `register_skill(s)` the lookup `get_skill(s.name)`
returns `s` with `overrides_core` set, while the core index still returns
the original core skill `c`. -/
theorem register_skill_core_override (r : SkillRegistry) (c s : Skill)
    (hreg : dictGet s.name r.skills = some c)
    (hcore : c.is_core = true)
    (hnoncore : s.is_core = false)
    (hcidx : dictGet s.name r.core_skills = some c) :
    (r.register_skill s).get_skill s.name = some { s with overrides_core := true } ∧
    dictGet s.name (r.register_skill s).core_skills = some c ∧
    ({ s with overrides_core := true } : Skill).overrides_core = true := by
  refine ⟨?_, ?_, rfl⟩
  · rw [SkillRegistry.get_skill, SkillRegistry.register_skill]
    simp only [hreg, hcore, hnoncore]
    exact dictGet_dictSet_self _ _ _
  · rw [SkillRegistry.register_skill]
    simp only [hreg, hcore, hnoncore]
    exact hcidx

/-- Witness for C8 on the concrete registry: the lookup returns the agent
skill with `overrides_core` set and the core index still holds the core
skill. -/
theorem register_skill_core_override_witness :
    (c8Registry.register_skill c8AgentSkill).get_skill "file-operations" =
      some { c8AgentSkill with overrides_core := true } ∧
    dictGet "file-operations" (c8Registry.register_skill c8AgentSkill).core_skills =
      some c8CoreSkill :=
  ⟨(register_skill_core_override c8Registry c8CoreSkill c8AgentSkill rfl rfl rfl rfl).1,
   (register_skill_core_override c8Registry c8CoreSkill c8AgentSkill rfl rfl rfl rfl).2.1⟩

/-!
## C9: unknown audit strategy falls back
-/

/-- C9.  Whenever the LLM-chosen strategy name is none of the three file
strategies, the dispatch applies `verify_tool_output_success` to the
previous step's output; that predicate fails with severity ERROR exactly
when the lowercased output contains "error", "exception" or "failed", and
passes with severity INFO otherwise. -/
theorem auditor_unknown_strategy_fallback (fs : FileSystem) (choice : StrategyChoice)
    (prev : String)
    (h1 : choice.strategy ≠ some "verify_file_exists")
    (h2 : choice.strategy ≠ some "verify_file_content_contains")
    (h3 : choice.strategy ≠ some "verify_file_does_not_exist") :
    auditorDispatch fs choice prev = verify_tool_output_success prev ∧
    (((verify_tool_output_success prev).passed = false ∧
      (verify_tool_output_success prev).severity = .ERROR) ↔
     (strContains (lowerStr prev) "error" || strContains (lowerStr prev) "exception" ||
      strContains (lowerStr prev) "failed") = true) ∧
    (((verify_tool_output_success prev).passed = true ∧
      (verify_tool_output_success prev).severity = .INFO) ↔
     (strContains (lowerStr prev) "error" || strContains (lowerStr prev) "exception" ||
      strContains (lowerStr prev) "failed") = false) := by
  refine ⟨?_, ?_, ?_⟩
  · rw [auditorDispatch, if_neg h1, if_neg h2, if_neg h3]
  · rw [verify_tool_output_success]
    split
    · next h => simp [h]
    · next h => simp [h]
  · rw [verify_tool_output_success]
    split
    · next h => simp [h]
    · next h =>
      simp only [Bool.not_eq_true] at h
      simp [h]

/-- Witness for C9: an unknown strategy name dispatches to the generic
predicate, which passes on a clean output and fails with ERROR on an output
that contains "failed". -/
theorem auditor_unknown_strategy_fallback_witness :
    auditorDispatch [] { strategy := some "verify_disk_quota" } "Wrote 3 files" =
      verify_tool_output_success "Wrote 3 files" ∧
    (verify_tool_output_success "Wrote 3 files").passed = true ∧
    (verify_tool_output_success "Execution FAILED").passed = false ∧
    (verify_tool_output_success "Execution FAILED").severity = .ERROR := by
  refine ⟨(auditor_unknown_strategy_fallback [] { strategy := some "verify_disk_quota" }
      "Wrote 3 files" (by decide) (by decide) (by decide)).1,
    ((auditor_unknown_strategy_fallback [] { strategy := some "verify_disk_quota" }
      "Wrote 3 files" (by decide) (by decide) (by decide)).2.2.mpr (by decide)).1,
    ?_, ?_⟩
  · exact ((auditor_unknown_strategy_fallback [] { strategy := some "other" }
      "Execution FAILED" (by decide) (by decide) (by decide)).2.1.mpr (by decide)).1
  · exact ((auditor_unknown_strategy_fallback [] { strategy := some "other" }
      "Execution FAILED" (by decide) (by decide) (by decide)).2.1.mpr (by decide)).2

/-!
## C4: the cursor advances by exactly one per Actor/Auditor tick
-/

/-- The router only selects the Actor for an in-range step whose role is the
literal `"Actor"`. -/
theorem route_step_toActor_inv (st : AgentState) (h : route_step st = .toActor) :
    ∃ hlt : st.current_step_index < st.plan.length,
      st.plan[st.current_step_index].role = some "Actor" := by
  by_cases hlt : st.current_step_index < st.plan.length
  · refine ⟨hlt, ?_⟩
    rw [route_step, dif_pos hlt] at h
    by_cases hA : st.plan[st.current_step_index].role = some "Actor"
    · exact hA
    · rw [if_neg hA] at h
      by_cases hB : st.plan[st.current_step_index].role = some "Auditor"
      · rw [if_pos hB] at h
        simp at h
      · rw [if_neg hB] at h
        simp at h
  · rw [route_step, dif_neg hlt] at h
    simp at h

/-- The router only selects the Auditor for an in-range step whose role is
the literal `"Auditor"`. -/
theorem route_step_toAuditor_inv (st : AgentState) (h : route_step st = .toAuditor) :
    ∃ hlt : st.current_step_index < st.plan.length,
      st.plan[st.current_step_index].role = some "Auditor" := by
  by_cases hlt : st.current_step_index < st.plan.length
  · refine ⟨hlt, ?_⟩
    rw [route_step, dif_pos hlt] at h
    by_cases hA : st.plan[st.current_step_index].role = some "Actor"
    · rw [if_pos hA] at h
      simp at h
    · rw [if_neg hA] at h
      by_cases hB : st.plan[st.current_step_index].role = some "Auditor"
      · exact hB
      · rw [if_neg hB] at h
        simp at h
  · rw [route_step, dif_neg hlt] at h
    simp at h

/-- Out-of-range guard of `actor_node`: the node returns the empty update. -/
theorem actor_node_out_of_range (codeResp : Except String String)
    (execRes : Except String Unit) (st : AgentState)
    (h : st.plan.length ≤ st.current_step_index) :
    actor_node codeResp execRes st = .ok {} := by
  rw [actor_node.eq_def, dif_neg (by omega)]

/-- Wrong-role guard of `actor_node`: the node returns the empty update. -/
theorem actor_node_wrong_role (codeResp : Except String String)
    (execRes : Except String Unit) (st : AgentState)
    (hlt : st.current_step_index < st.plan.length)
    (hrole : st.plan[st.current_step_index].role ≠ some "Actor") :
    actor_node codeResp execRes st = .ok {} := by
  rw [actor_node.eq_def, dif_pos hlt]
  simp only []
  rw [if_pos hrole]

/-- A missing instruction makes the node raise before doing anything. -/
theorem actor_node_none_instruction (codeResp : Except String String)
    (execRes : Except String Unit) (st : AgentState)
    (hlt : st.current_step_index < st.plan.length)
    (hrole : st.plan[st.current_step_index].role = some "Actor")
    (hinstr : st.plan[st.current_step_index].instruction = none) :
    actor_node codeResp execRes st =
      .error "TypeError: expected string or bytes-like object" := by
  rw [actor_node.eq_def, dif_pos hlt]
  simp only []
  rw [if_neg (by simp [hrole]), hinstr]

/-- Past the guards, `actor_node` is the skill lookup with the
code-generation fallback. -/
theorem actor_node_skill_branch_eq (codeResp : Except String String)
    (execRes : Except String Unit) (st : AgentState) (instr : String)
    (hlt : st.current_step_index < st.plan.length)
    (hrole : st.plan[st.current_step_index].role = some "Actor")
    (hinstr : st.plan[st.current_step_index].instruction = some instr) :
    actor_node codeResp execRes st =
      (match st.agent_instance with
       | none => actorFallbackResult codeResp execRes st
       | some ag =>
         match findSkillInvocation instr with
         | none => actorFallbackResult codeResp execRes st
         | some skillName =>
           if ag.registry.has_skill skillName then
             match ag.registry.execute_skill skillName [] with
             | .ok skillResult =>
               .ok { tool_outputs := some (dictSet ("step_" ++ toString st.current_step_index)
                       ("Skill executed: " ++ skillResult) st.tool_outputs)
                     current_step_index := some (st.current_step_index + 1) }
             | .error _ => actorFallbackResult codeResp execRes st
           else actorFallbackResult codeResp execRes st) := by
  rw [actor_node.eq_def, dif_pos hlt]
  simp only []
  rw [if_neg (by simp [hrole]), hinstr]
  rfl

/-- Whenever the fallback returns an update, its cursor is the old index
plus one. -/
theorem actorFallbackResult_ok_index (codeResp : Except String String)
    (execRes : Except String Unit) (st : AgentState) (upd : ActorUpdate)
    (h : actorFallbackResult codeResp execRes st = .ok upd) :
    upd.current_step_index = some (st.current_step_index + 1) := by
  cases codeResp with
  | error e => simp [actorFallbackResult] at h
  | ok c =>
    simp only [actorFallbackResult] at h
    cases h
    rfl

/-- On a step the router actually sends to the Actor, every update the node
returns carries exactly the old index plus one. -/
theorem actor_node_routed_index (codeResp : Except String String)
    (execRes : Except String Unit) (st : AgentState)
    (hlt : st.current_step_index < st.plan.length)
    (hrole : st.plan[st.current_step_index].role = some "Actor")
    (upd : ActorUpdate) (h : actor_node codeResp execRes st = .ok upd) :
    upd.current_step_index = some (st.current_step_index + 1) := by
  rcases hinstr : st.plan[st.current_step_index].instruction with _ | instr
  · rw [actor_node_none_instruction codeResp execRes st hlt hrole hinstr] at h
    cases h
  · rw [actor_node_skill_branch_eq codeResp execRes st instr hlt hrole hinstr] at h
    rcases hag : st.agent_instance with _ | ag
    · rw [hag] at h
      exact actorFallbackResult_ok_index codeResp execRes st upd h
    · simp only [hag] at h
      rcases hfind : findSkillInvocation instr with _ | name
      · simp only [hfind] at h
        exact actorFallbackResult_ok_index codeResp execRes st upd h
      · simp only [hfind] at h
        by_cases hhas : ag.registry.has_skill name = true
        · rw [if_pos hhas] at h
          cases hex : ag.registry.execute_skill name [] with
          | ok r =>
            rw [hex] at h
            cases h
            rfl
          | error e =>
            rw [hex] at h
            exact actorFallbackResult_ok_index codeResp execRes st upd h
        · rw [if_neg hhas] at h
          exact actorFallbackResult_ok_index codeResp execRes st upd h

/-- Whenever `actor_node` returns an update at all, the cursor field of that
update is either absent (the early guards) or exactly the old index plus
one. -/
theorem actor_node_index_shape (codeResp : Except String String)
    (execRes : Except String Unit) (st : AgentState) (upd : ActorUpdate)
    (h : actor_node codeResp execRes st = .ok upd) :
    upd.current_step_index = none ∨
    upd.current_step_index = some (st.current_step_index + 1) := by
  by_cases hlt : st.current_step_index < st.plan.length
  · by_cases hrole : st.plan[st.current_step_index].role = some "Actor"
    · right
      exact actor_node_routed_index codeResp execRes st hlt hrole upd h
    · rw [actor_node_wrong_role codeResp execRes st hlt hrole] at h
      cases h
      left
      rfl
  · rw [actor_node_out_of_range codeResp execRes st (by omega)] at h
    cases h
    left
    rfl

/-- On a step the router actually sends to the Auditor, the node's update
carries exactly the old index plus one. -/
theorem auditor_node_routed_index (llmChoice : Except String StrategyChoice)
    (fs : FileSystem) (st : AgentState)
    (hlt : st.current_step_index < st.plan.length)
    (hrole : st.plan[st.current_step_index].role = some "Auditor") :
    (auditor_node llmChoice fs st).current_step_index =
      some (st.current_step_index + 1) := by
  rw [auditor_node, dif_pos hlt]
  simp only []
  rw [if_neg (by simp [hrole])]

/-- `auditor_node` either returns the empty update (the early guards) or a
cursor equal to the old index plus one. -/
theorem auditor_node_index_shape (llmChoice : Except String StrategyChoice)
    (fs : FileSystem) (st : AgentState) :
    (auditor_node llmChoice fs st).current_step_index = none ∨
    (auditor_node llmChoice fs st).current_step_index =
      some (st.current_step_index + 1) := by
  rw [auditor_node]
  split
  · simp only []
    split
    · left
      rfl
    · right
      rfl
  · left
    rfl

/-- C4.  On every tick the router hands to the Actor or the Auditor, the
partial update the node produces sets `current_step_index` to exactly the
old index plus one (for the Actor, whenever the node returns an update
rather than propagating an LLM exception); and on arbitrary states both
nodes either leave the cursor out of the update or set it to exactly the
old index plus one, so the cursor is monotonically non-decreasing and never
jumps by more than one per tick. -/
theorem step_cursor_increments_by_one (st : AgentState)
    (codeResp : Except String String) (execRes : Except String Unit)
    (llmChoice : Except String StrategyChoice) (fs : FileSystem) :
    (∀ upd, route_step st = .toActor → actor_node codeResp execRes st = .ok upd →
       upd.current_step_index = some (st.current_step_index + 1)) ∧
    (route_step st = .toAuditor →
       (auditor_node llmChoice fs st).current_step_index =
         some (st.current_step_index + 1)) ∧
    (∀ upd, actor_node codeResp execRes st = .ok upd →
       upd.current_step_index = none ∨
       upd.current_step_index = some (st.current_step_index + 1)) ∧
    ((auditor_node llmChoice fs st).current_step_index = none ∨
     (auditor_node llmChoice fs st).current_step_index =
       some (st.current_step_index + 1)) := by
  refine ⟨?_, ?_, ?_, ?_⟩
  · intro upd hroute hok
    obtain ⟨hlt, hrole⟩ := route_step_toActor_inv st hroute
    exact actor_node_routed_index codeResp execRes st hlt hrole upd hok
  · intro hroute
    obtain ⟨hlt, hrole⟩ := route_step_toAuditor_inv st hroute
    exact auditor_node_routed_index llmChoice fs st hlt hrole
  · intro upd hok
    exact actor_node_index_shape codeResp execRes st upd hok
  · exact auditor_node_index_shape llmChoice fs st

/-- Witness for C4: on the concrete plan, the Actor tick at step 0 yields
cursor 1 and the Auditor tick at step 1 yields cursor 2 (even though the
Auditor's LLM call failed). -/
theorem step_cursor_increments_by_one_witness :
    ({ tool_outputs := some [("step_0", "Success")],
       current_step_index := some 1 } : ActorUpdate).current_step_index = some (0 + 1) ∧
    (auditor_node (.error "llm down") [] c4AuditorState).current_step_index =
      some (1 + 1) :=
  ⟨(step_cursor_increments_by_one c4ActorState (.ok "code") (.ok ())
      (.error "llm down") []).1 _ (by decide) (by rfl),
   (step_cursor_increments_by_one c4AuditorState (.ok "code") (.ok ())
      (.error "llm down") []).2.1 (by decide)⟩

/-!
## C1: code execution is NOT behind a feature flag
-/

/-- Counterexample for C1.  The Actor has no code-execution feature flag: in
the code's one and only (hence default) configuration, a step whose
instruction resolves to no skill has the generated code evaluated and the
`exec` outcome recorded as the step's output, contradicting "when that flag
is disabled (the default), no generated code is executed and the step
records no exec output".  Concretely, for the instruction "Write a poem"
(which matches no skill pattern) the node records `"Success"` when the
`exec` succeeds and `"Error: ..."` when it raises. -/
theorem actor_exec_unconditional_cex :
    findSkillInvocation "Write a poem" = none ∧
    actor_node (.ok "print(1)") (.ok ()) c1State =
      .ok { tool_outputs := some [("step_0", "Success")], current_step_index := some 1 } ∧
    actor_node (.ok "print(undefined)") (.error "NameError: undefined is not defined")
        c1State =
      .ok { tool_outputs := some [("step_0", "Error: NameError: undefined is not defined")],
            current_step_index := some 1 } :=
  ⟨rfl, rfl, rfl⟩

/-- C1 (amended).  `core/nodes/actor.py` contains no code-execution feature
flag: on every Actor step whose instruction does not resolve to a registered
skill (no attached agent, no regex match, or a matched name the registry
does not have), the node unconditionally takes the code-generation fallback,
and - whenever the tool-LLM call returns - records the `exec` outcome
(`"Success"` or an error string) in `tool_outputs["step_{i}"]` and advances
the cursor by one. -/
theorem actor_fallback_executes_code (codeResp : Except String String)
    (execRes : Except String Unit) (st : AgentState) (instr : String)
    (hlt : st.current_step_index < st.plan.length)
    (hrole : st.plan[st.current_step_index].role = some "Actor")
    (hinstr : st.plan[st.current_step_index].instruction = some instr)
    (hnoskill : ∀ ag, st.agent_instance = some ag → ∀ name,
        findSkillInvocation instr = some name → ag.registry.has_skill name = false) :
    actor_node codeResp execRes st = actorFallbackResult codeResp execRes st ∧
    (∀ c, codeResp = .ok c →
       actor_node codeResp execRes st =
         .ok { tool_outputs := some (dictSet ("step_" ++ toString st.current_step_index)
                 (match execRes with
                  | .ok _ => "Success"
                  | .error e => "Error: " ++ e) st.tool_outputs)
               current_step_index := some (st.current_step_index + 1) }) := by
  have h1 : actor_node codeResp execRes st = actorFallbackResult codeResp execRes st := by
    rw [actor_node_skill_branch_eq codeResp execRes st instr hlt hrole hinstr]
    rcases hag : st.agent_instance with _ | ag
    · rfl
    · simp only []
      rcases hfind : findSkillInvocation instr with _ | name
      · rfl
      · simp only []
        have hh := hnoskill ag hag name hfind
        simp [hh]
  refine ⟨h1, ?_⟩
  intro c hc
  rw [h1, hc]
  cases execRes <;> rfl

/-- Witness for C1 (amended): on the concrete no-skill state, a failing
`exec` leaves `"Error: boom"` as the recorded output of step 0. -/
theorem actor_fallback_executes_code_witness :
    actor_node (.ok "print(1)") (.error "boom") c1State =
      .ok { tool_outputs := some [("step_0", "Error: boom")],
            current_step_index := some 1 } := by
  have h := (actor_fallback_executes_code (.ok "print(1)") (.error "boom") c1State
    "Write a poem" (by decide) rfl rfl
    (fun ag hag => by cases hag)).2 "print(1)" rfl
  exact h

/-!
## C2: a failing skill hook falls back to code generation
-/

/-- Counterexample for C2.  On a step whose instruction invokes the
registered skill `file-ops`, whose hook raises `boom`, the registry wraps
the exception as a skill-execution-failed error, but the node then falls
back to code generation: `tool_outputs["step_0"]` records the `exec`
outcome `"Success"`, not the skill-execution-failed message, contradicting
"the resulting skill-execution-failed error message is recorded in
tool_outputs". -/
theorem skill_failure_fallback_cex :
    c2Registry.execute_skill "file-ops" [] =
      .error ("Skill " ++ quoted "file-ops" ++ " execution failed: boom") ∧
    actor_node (.ok "print(1)") (.ok ()) c2State =
      .ok { tool_outputs := some [("step_0", "Success")], current_step_index := some 1 } ∧
    ("Success" : String) ≠ "Skill " ++ quoted "file-ops" ++ " execution failed: boom" :=
  ⟨rfl, rfl, by decide⟩

/-- C2 (amended).  When an Actor step invokes a registered skill whose hook
raises, the exception is caught and the node falls back to code generation:
`tool_outputs["step_i"]` records the code-execution outcome (not the
skill-execution-failed message), the cursor advances by one, and the run
continues. -/
theorem skill_failure_falls_back_to_codegen (codeResp : Except String String)
    (execRes : Except String Unit) (st : AgentState) (instr name e : String)
    (ag : Agent)
    (hlt : st.current_step_index < st.plan.length)
    (hrole : st.plan[st.current_step_index].role = some "Actor")
    (hinstr : st.plan[st.current_step_index].instruction = some instr)
    (hag : st.agent_instance = some ag)
    (hfind : findSkillInvocation instr = some name)
    (hhas : ag.registry.has_skill name = true)
    (hfail : ag.registry.execute_skill name [] = .error e) :
    actor_node codeResp execRes st = actorFallbackResult codeResp execRes st ∧
    (∀ c, codeResp = .ok c →
       actor_node codeResp execRes st =
         .ok { tool_outputs := some (dictSet ("step_" ++ toString st.current_step_index)
                 (match execRes with
                  | .ok _ => "Success"
                  | .error e => "Error: " ++ e) st.tool_outputs)
               current_step_index := some (st.current_step_index + 1) }) := by
  have h1 : actor_node codeResp execRes st = actorFallbackResult codeResp execRes st := by
    rw [actor_node_skill_branch_eq codeResp execRes st instr hlt hrole hinstr]
    simp only [hag]
    simp only [hfind]
    rw [if_pos hhas]
    simp only [hfail]
  refine ⟨h1, ?_⟩
  intro c hc
  rw [h1, hc]
  cases execRes <;> rfl

/-- Witness for C2 (amended): on the concrete failing-skill state, the node
records the `exec` outcome `"Success"` for step 0 and advances the cursor. -/
theorem skill_failure_falls_back_to_codegen_witness :
    actor_node (.ok "print(1)") (.ok ()) c2State =
      .ok { tool_outputs := some [("step_0", "Success")],
            current_step_index := some 1 } := by
  have h := (skill_failure_falls_back_to_codegen (.ok "print(1)") (.ok ()) c2State
    "use file-ops" "file-ops" ("Skill " ++ quoted "file-ops" ++ " execution failed: boom")
    { name := "tester", registry := c2Registry }
    (by decide) rfl rfl rfl (by rfl) (by rfl) (by rfl)).2 "print(1)" rfl
  exact h

/-!
## C10: the sections of `format_context_for_prompt`
-/

/-- `dictSet` never produces an empty dict. -/
theorem dictSet_ne_nil {α : Type} (k : String) (v : α) (d : List (String × α)) :
    dictSet k v d ≠ [] := by
  cases d with
  | nil => simp [dictSet]
  | cons hd tl =>
    obtain ⟨k', v'⟩ := hd
    rw [dictSet]
    split <;> simp

/-- Folding `dictSet` over a nonempty row list never yields an empty dict. -/
theorem foldl_dictSet_ne_nil (facts : List UserFact) (d : List (String × String))
    (h : facts ≠ [] ∨ d ≠ []) :
    List.foldl (fun d f => dictSet f.key f.value d) d facts ≠ [] := by
  induction facts generalizing d with
  | nil =>
    rcases h with h | h
    · exact absurd rfl h
    · simpa using h
  | cons f fs ih =>
    rw [List.foldl_cons]
    exact ih (dictSet f.key f.value d) (Or.inr (dictSet_ne_nil f.key f.value d))

/-- The indented JSON of a nonempty dict is not the literal `"{}"`. -/
theorem jsonDumpsIndent2_ne_empty (d : List (String × String)) (h : d ≠ []) :
    jsonDumpsIndent2 d ≠ "\x7b\x7d" := by
  cases d with
  | nil => exact absurd rfl h
  | cons kv rest =>
    intro heq
    have hdata := congrArg String.data heq
    simp [jsonDumpsIndent2, String.data_append] at hdata

/-- C10 (amended).  `format_context_for_prompt()` always contains the
current-mental-state and recent-activity headings; the known-facts section
is emitted exactly for a nonempty facts store, and with an empty facts store
the output is just the first two sections. -/
theorem format_context_sections (mm : MemoryManager) :
    strContains mm.format_context_for_prompt
      "=== CURRENT MENTAL STATE (Do not ignore) ===" = true ∧
    strContains mm.format_context_for_prompt "=== RECENT ACTIVITY LOG ===" = true ∧
    (mm.facts ≠ [] →
       strContains mm.format_context_for_prompt "=== KNOWN USER FACTS ===" = true) ∧
    (mm.facts = [] →
       mm.format_context_for_prompt =
         "=== CURRENT MENTAL STATE (Do not ignore) ===\n" ++
         "You are currently working on:\n" ++ mm.read_now ++ "\n\n" ++
         "=== RECENT ACTIVITY LOG ===\n" ++ mm.read_log (some 20) ++ "\n\n") := by
  refine ⟨?_, ?_, ?_, ?_⟩
  · rw [MemoryManager.format_context_for_prompt]
    simp only [MemoryManager.read_context]
    split
    · simp only [strContains, String.data_append, List.append_assoc]
      rfl
    · simp only [strContains, String.data_append, List.append_assoc]
      rfl
  · rw [MemoryManager.format_context_for_prompt]
    simp only [MemoryManager.read_context]
    split
    · simp only [strContains, String.data_append, List.append_assoc]
      apply containsSub_append_left
      apply containsSub_append_left
      apply containsSub_append_left
      apply containsSub_append_left
      rfl
    · simp only [strContains, String.data_append, List.append_assoc]
      apply containsSub_append_left
      apply containsSub_append_left
      apply containsSub_append_left
      apply containsSub_append_left
      rfl
  · intro hne
    have hd : jsonDumpsIndent2 (get_all_facts mm.facts none) ≠ "\x7b\x7d" :=
      jsonDumpsIndent2_ne_empty _
        (foldl_dictSet_ne_nil mm.facts [] (Or.inl hne))
    rw [MemoryManager.format_context_for_prompt]
    simp only [MemoryManager.read_context]
    rw [if_pos hd]
    simp only [strContains, String.data_append, List.append_assoc]
    apply containsSub_append_left
    apply containsSub_append_left
    apply containsSub_append_left
    apply containsSub_append_left
    apply containsSub_append_left
    apply containsSub_append_left
    apply containsSub_append_left
    rfl
  · intro hnil
    have hd : jsonDumpsIndent2 (get_all_facts mm.facts none) = "\x7b\x7d" := by
      rw [hnil]
      rfl
    rw [MemoryManager.format_context_for_prompt]
    simp only [MemoryManager.read_context]
    rw [if_neg (by simp [hd])]

/-- Counterexample for C10.  On a manager with an empty facts store, the
formatted context does not contain the known-facts heading at all, so the
output does not consist of all three headed sections. -/
theorem format_context_empty_facts_cex :
    c10Manager.facts = [] ∧
    strContains c10Manager.format_context_for_prompt "=== KNOWN USER FACTS ===" = false :=
  ⟨rfl, by decide⟩

/-- Witness for C10 (amended): with one stored fact the known-facts heading
appears, and with none the output is exactly the two leading sections. -/
theorem format_context_sections_witness :
    strContains c10bManager.format_context_for_prompt "=== KNOWN USER FACTS ===" = true ∧
    c10Manager.format_context_for_prompt =
      "=== CURRENT MENTAL STATE (Do not ignore) ===\n" ++
      "You are currently working on:\n" ++ c10Manager.read_now ++ "\n\n" ++
      "=== RECENT ACTIVITY LOG ===\n" ++ c10Manager.read_log (some 20) ++ "\n\n" :=
  ⟨(format_context_sections c10bManager).2.2.1 (by decide),
   (format_context_sections c10Manager).2.2.2 rfl⟩

end AgentOS
